import Mathlib

/-!
Verification of the scholar-keyword-scrapper repository.

The development shallowly embeds the two variants of the scraper that the
claims refer to:

* `V1` models `src/v1/scrape_scholar.py` (the `scholarly`-based variant):
  the keyword matcher `_matches_keywords`, the query builder, checkpoint
  compatibility, the chunked fetch loop `fetch_chunk`, and the tail of
  `main` (from the resume decision to the checkpoint write).  The external
  Scholar iterator is modelled as an environment assigning to every raw
  index an event (a record, stream exhaustion, or a rate-limit exception),
  and the observable side effects of a run (iterator opening, per-record
  fetches, sleeps, file writes) are collected in an explicit effect trace.

* `BS4` models `src/scholar_scraper_bs4.py` (the Selenium/BeautifulSoup
  variant): `parse_scholar_result` over an abstract parsed result division
  and its page-walking `fetch_chunk`.

Python strings are modelled through their character lists; the handful of
Python string primitives the code uses (`lower`, `in`, `endswith`,
slicing, `strip`, `rstrip`, `replace`, `split`) are defined below on
`List Char` so that every definition is executable by the kernel.
-/

/-! ## Python string primitives -/

/-- Boolean test that `pat` is a prefix of `hay` (character lists). -/
def startsWithSub : List Char → List Char → Bool
  | [], _ => true
  | _ :: _, [] => false
  | c :: cs, d :: ds => decide (c = d) && startsWithSub cs ds

/-- Boolean test that `pat` occurs contiguously inside `hay`; this is
Python's substring operator `pat in hay` on character lists. -/
def containsSub (pat : List Char) : List Char → Bool
  | [] => startsWithSub pat []
  | d :: t => startsWithSub pat (d :: t) || containsSub pat t

/-- Proposition that `pat` occurs contiguously inside `hay`. -/
def OccursIn (pat hay : List Char) : Prop :=
  ∃ l r, hay = l ++ pat ++ r

theorem startsWithSub_iff (pat hay : List Char) :
    startsWithSub pat hay = true ↔ ∃ r, hay = pat ++ r := by
  induction pat generalizing hay with
  | nil => simp [startsWithSub]
  | cons c cs ih =>
    cases hay with
    | nil => simp [startsWithSub]
    | cons d ds =>
      simp only [startsWithSub, Bool.and_eq_true, decide_eq_true_eq, ih,
        List.cons_append, List.cons.injEq]
      constructor
      · rintro ⟨rfl, r, rfl⟩
        exact ⟨r, rfl, rfl⟩
      · rintro ⟨r, rfl, rfl⟩
        exact ⟨rfl, r, rfl⟩

theorem containsSub_iff (pat hay : List Char) :
    containsSub pat hay = true ↔ OccursIn pat hay := by
  unfold OccursIn
  induction hay with
  | nil =>
    simp only [containsSub, startsWithSub_iff]
    constructor
    · rintro ⟨r, hr⟩
      exact ⟨[], r, by simpa using hr⟩
    · rintro ⟨l, r, hr⟩
      have hlen := congrArg List.length hr
      simp only [List.length_nil, List.length_append] at hlen
      have hp : pat = [] := List.length_eq_zero.mp (by omega)
      exact ⟨[], by simp [hp]⟩
  | cons d t ih =>
    simp only [containsSub, Bool.or_eq_true, startsWithSub_iff, ih]
    constructor
    · rintro (⟨r, hr⟩ | ⟨l, r, hr⟩)
      · exact ⟨[], r, by simpa using hr⟩
      · exact ⟨d :: l, r, by simp [hr]⟩
    · rintro ⟨l, r, hr⟩
      cases l with
      | nil => exact Or.inl ⟨r, by simpa using hr⟩
      | cons d' l' =>
        simp only [List.cons_append, List.cons.injEq] at hr
        exact Or.inr ⟨l', r, hr.2⟩

theorem startsWithSub_length {pat hay : List Char}
    (h : startsWithSub pat hay = true) : pat.length ≤ hay.length := by
  obtain ⟨r, rfl⟩ := (startsWithSub_iff pat hay).mp h
  simp

/-- Python `s.lower()` (per-character lowercasing; the keyword lists and
all strings the claims exercise are ASCII). -/
def lowerStr (s : String) : String :=
  ⟨s.data.map Char.toLower⟩

/-- Python `s.endswith(pat)`. -/
def strEndsWith (s pat : String) : Bool :=
  startsWithSub pat.data.reverse s.data.reverse

/-- Python `s[:-1]` for a nonempty string (drop the final character). -/
def dropLastChar (s : String) : String :=
  ⟨s.data.dropLast⟩

/-- Python `x in y` on strings. -/
def strContains (hay needle : String) : Bool :=
  containsSub needle.data hay.data

/-! ## The v1 variant (`src/v1/scrape_scholar.py`) -/

namespace V1

/-- Module constant `ITA_KEYWORDS`. -/
def ITA_KEYWORDS : List String :=
  ["ITA",
   "Foreign teaching assistant*",
   "International teaching assistant*",
   "Non-native teaching assistant*"]

/-- Module constant `ASSESSMENT_KEYWORDS`. -/
def ASSESSMENT_KEYWORDS : List String :=
  ["speaking assessment*",
   "rubric*",
   "language proficiency",
   "oral proficiency",
   "language assessment",
   "accent assessment",
   "intelligibility assessment"]

/-- Helper for `build_query`: `" OR ".join(...)` over quoted keywords. -/
def joinOr : List String → String
  | [] => ""
  | [kw] => "\"" ++ kw ++ "\""
  | kw :: rest => "\"" ++ kw ++ "\"" ++ " OR " ++ joinOr rest

/-- Function `build_query`: renders the two keyword lists into the boolean
Scholar query string with the fixed exclusion terms. -/
def build_query (ita_keywords assessment_keywords : List String) : String :=
  "(" ++ joinOr ita_keywords ++ ") AND (" ++ joinOr assessment_keywords
    ++ ") -Italian -lingua"

/-- Function `_matches_keywords`: empty text yields `false`; otherwise some
keyword must occur case-insensitively in the text, where a keyword ending
in `*` contributes its prefix (the keyword without the `*`). -/
def matches_keywords (text : String) (keywords : List String) : Bool :=
  if text = "" then false
  else
    keywords.any fun kw =>
      if strEndsWith kw "*" then
        strContains (lowerStr text) (lowerStr (dropLastChar kw))
      else
        strContains (lowerStr text) (lowerStr kw)

/-- Keyword-occurrence predicate of the specification: the text contains
the keyword case-insensitively as a substring, where a keyword ending in
`*` is represented by its prefix. -/
def keywordOccurs (text kw : String) : Prop :=
  if strEndsWith kw "*" then
    OccursIn (lowerStr (dropLastChar kw)).data (lowerStr text).data
  else
    OccursIn (lowerStr kw).data (lowerStr text).data

/-- Paper record assembled by the fetch loop (the dict built around line
367 of `scrape_scholar.py`; `number` is the raw index `idx`). -/
structure Paper where
  number : Int
  title : String
  authors : String
  year : String
  venue : String
  citations : Nat
  abstract : String
  url : String
deriving DecidableEq

/-- Raw result returned by `next(search_query)`.  The nested `bib` dict
and the outer dict are flattened; each `Option` field models the presence
of the corresponding key (`.get` with a default in the code). -/
structure RawResult where
  title : Option String := none
  abstract : Option String := none
  author : Option String := none
  pub_year : Option String := none
  venue : Option String := none
  num_citations : Option Nat := none
  pub_url : Option String := none
deriving DecidableEq

/-- Outcome of one `next(search_query)` call: a raw record, the iterator
raising `StopIteration`, or it raising `MaxTriesExceededException`. -/
inductive StreamEvent where
  | result (r : RawResult)
  | stop
  | throttle
deriving DecidableEq

/-- Exception propagated out of `fetch_chunk` (the only one it re-raises
deliberately is the scholarly rate-limit exception). -/
inductive FetchError where
  | maxTriesExceeded
deriving DecidableEq

/-- Return value of `fetch_chunk` on the normal path: the tuple
`(papers, last_index, reached_end)`. -/
structure FetchResult where
  papers : List Paper
  last_index : Int
  reached_end : Bool
deriving DecidableEq

/-- Fields of the checkpoint payload written by `main` (the wall-clock
`last_updated` timestamp is omitted from the model). -/
structure CheckpointPayload where
  query : String
  ita_keywords : List String
  assessment_keywords : List String
  chunk_size : Int
  max_results : Int
  next_index : Int
  completed : Bool
deriving DecidableEq

/-- Observable side effects of a run, in order of occurrence: opening the
Scholar iterator, one `next()` call per raw index, an actual sleep inside
`throttle_between_requests`, and the four output writes of `main` (each
carrying the data written). -/
inductive RunEffect where
  | openSearch
  | fetchNext (idx : Nat)
  | sleep
  | writeJson (papers : List Paper)
  | appendCsv (papers : List Paper)
  | writeReport (papers : List Paper)
  | writeCheckpoint (cp : CheckpointPayload)
deriving DecidableEq

/-- External Scholar environment: whether `scholarly.search_pubs` itself
raises the rate-limit exception, and the outcome of the `idx`-th `next()`
call on the iterator (indices start at 1). -/
structure ScholarEnv where
  openThrottles : Bool
  stream : Nat → StreamEvent

/-- Effects of `throttle_between_requests`: it returns immediately when
`max_delay <= 0` and otherwise sleeps a random duration drawn from the
interval (the duration itself is not observable in the model). -/
def throttleEffects (min_delay max_delay : ℚ) : List RunEffect :=
  if max_delay ≤ 0 then [] else [.sleep]

/-- Python `range(a, a + n)` as an explicit list, so that the fetch loop
is structural recursion over its iteration space. -/
def pyRange : Nat → Nat → List Nat
  | _, 0 => []
  | a, n + 1 => a :: pyRange (a + 1) n

/-- Body of the `for idx in range(1, end_index + 1)` loop of `fetch_chunk`,
walking the remaining raw indices `idxs` with the accepted papers and
`last_index` accumulated so far.  Each iteration first performs the
`next()` call: a rate-limit exception aborts the chunk, `StopIteration`
ends it with `last_index = idx - 1` and `reached_end` set, an index below
`start_index` is skipped (but advances `last_index`), a record failing
either keyword group is dropped silently (leaving `last_index` alone), and
an accepted record is appended with `number = idx`, advancing
`last_index` and sleeping when `idx < end_index`. -/
def fetchLoop (stream : Nat → StreamEvent) (start_index end_index : Int)
    (min_delay max_delay : ℚ) :
    List Nat → List Paper → Int → Except FetchError FetchResult × List RunEffect
  | [], papers, last_index => (.ok ⟨papers, last_index, false⟩, [])
  | idx :: rest, papers, last_index =>
    match stream idx with
    | .throttle => (.error .maxTriesExceeded, [.fetchNext idx])
    | .stop => (.ok ⟨papers, (idx : Int) - 1, true⟩, [.fetchNext idx])
    | .result raw =>
      if (idx : Int) < start_index then
        let (r, effs) := fetchLoop stream start_index end_index min_delay max_delay
          rest papers (idx : Int)
        (r, .fetchNext idx :: effs)
      else
        let title := raw.title.getD ""
        let abstract := raw.abstract.getD ""
        let text := title ++ " " ++ abstract
        let has_ita := matches_keywords text ITA_KEYWORDS
        let has_assessment := matches_keywords text ASSESSMENT_KEYWORDS
        if !(has_ita && has_assessment) then
          let (r, effs) := fetchLoop stream start_index end_index min_delay max_delay
            rest papers last_index
          (r, .fetchNext idx :: effs)
        else
          let paper : Paper :=
            { number := (idx : Int)
              title := title
              authors := raw.author.getD "N/A"
              year := raw.pub_year.getD "N/A"
              venue := raw.venue.getD "N/A"
              citations := raw.num_citations.getD 0
              abstract := if abstract = "" then "N/A" else abstract
              url := raw.pub_url.getD "N/A" }
          let sleeps := if (idx : Int) < end_index
            then throttleEffects min_delay max_delay else []
          let (r, effs) := fetchLoop stream start_index end_index min_delay max_delay
            rest (papers ++ [paper]) (idx : Int)
          (r, .fetchNext idx :: (sleeps ++ effs))

/-- Function `fetch_chunk`: early return for an empty range, then opening
the iterator (which may itself raise the rate-limit exception), then the
loop over raw indices `1 .. end_index`. -/
def fetch_chunk (env : ScholarEnv) (query : String) (start_index end_index : Int)
    (min_delay max_delay : ℚ) : Except FetchError FetchResult × List RunEffect :=
  if start_index > end_index then
    (.ok ⟨[], start_index - 1, false⟩, [])
  else if env.openThrottles then
    (.error .maxTriesExceeded, [.openSearch])
  else
    let (r, effs) := fetchLoop env.stream start_index end_index min_delay max_delay
      (pyRange 1 end_index.toNat) [] (start_index - 1)
    (r, .openSearch :: effs)

/-- Stored checkpoint as loaded from `checkpoint.json`; each `Option`
field models `.get` on the loaded dict. -/
structure StoredCheckpoint where
  query : Option String := none
  ita_keywords : Option (List String) := none
  assessment_keywords : Option (List String) := none
  chunk_size : Option Int := none
  max_results : Option Int := none
  next_index : Option Int := none
deriving DecidableEq

/-- Function `is_checkpoint_compatible`: no checkpoint, a differing stored
query, or a differing stored keyword list (compared against the module
constants) makes it incompatible; nothing else does.  The `chunk_size` and
`max_results` arguments are accepted but never inspected, exactly as in
the source. -/
def is_checkpoint_compatible :
    Option StoredCheckpoint → String → Int → Int → Bool
  | none, _query, _chunk_size, _max_results => false
  | some cp, query, _chunk_size, _max_results =>
    if cp.query ≠ some query then false
    else if cp.ita_keywords ≠ some ITA_KEYWORDS
        ∨ cp.assessment_keywords ≠ some ASSESSMENT_KEYWORDS then false
    else true

/-- Python dict update `combined_map[paper.number] = paper` on an
association list of papers keyed by `number`. -/
def upsert (m : List Paper) (p : Paper) : List Paper :=
  if m.any fun q => q.number == p.number then
    m.map fun q => if q.number == p.number then p else q
  else m ++ [p]

/-- Insertion step of sorting the merged papers by `number` (the keys are
pairwise distinct after `upsert`, so insertion sort agrees with Python's
`sorted(combined_map.keys())`). -/
def insertByNumber (p : Paper) : List Paper → List Paper
  | [] => [p]
  | q :: rest =>
    if p.number ≤ q.number then p :: q :: rest else q :: insertByNumber p rest

/-- Sort papers by `number`. -/
def sortByNumber (l : List Paper) : List Paper :=
  l.foldr insertByNumber []

/-- Merge of `main`: existing papers are loaded into a map keyed by
`number`, newly fetched papers overwrite on key collision, and the result
is listed in ascending key order. -/
def mergePapers (existing newPapers : List Paper) : List Paper :=
  sortByNumber ((existing ++ newPapers).foldl upsert [])

/-- Tail of `main` (from line 433 of `scrape_scholar.py`, after argument
validation and the stale-checkpoint handling): decide the start index from
the resume flag and the stored `next_index` (defaulted to 1 and clamped
below by 1), return early when the checkpoint already covers
`max_results`, otherwise fetch one chunk and perform the four output
writes.  The returned trace lists every observable effect of the run; a
propagated rate-limit exception carries the effects that happened before
it. -/
def mainRun (env : ScholarEnv) (chunk_size max_results : Int)
    (min_delay max_delay : ℚ) (resume : Bool) (ckNextIndex : Option Int)
    (existingJson : List Paper) : Except FetchError Unit × List RunEffect :=
  let query := build_query ITA_KEYWORDS ASSESSMENT_KEYWORDS
  let existing_papers := if resume then existingJson else []
  let start_index : Int := if resume then max 1 (ckNextIndex.getD 1) else 1
  if start_index > max_results then (.ok (), [])
  else
    let remaining := max_results - (start_index - 1)
    if remaining ≤ 0 then (.ok (), [])
    else
      let cs := min chunk_size remaining
      let target_end_index := start_index + cs - 1
      match fetch_chunk env query start_index target_end_index min_delay max_delay with
      | (.error e, effs) => (.error e, effs)
      | (.ok res, effs) =>
        let combined := mergePapers existing_papers res.papers
        let next_index := if res.last_index ≥ start_index
          then res.last_index + 1 else start_index
        let completed := res.reached_end || decide (next_index > max_results)
        (.ok (),
          effs ++
            [.writeJson combined,
             .appendCsv res.papers,
             .writeReport combined,
             .writeCheckpoint
               { query := query
                 ita_keywords := ITA_KEYWORDS
                 assessment_keywords := ASSESSMENT_KEYWORDS
                 chunk_size := chunk_size
                 max_results := max_results
                 next_index := next_index
                 completed := completed }])

/-- Output files of the run. -/
inductive OutputFile where
  | json
  | csv
  | report
  | checkpoint
deriving DecidableEq

/-- Filesystem operations of the stale-checkpoint branch. -/
inductive FileOp where
  | rotate (f : OutputFile)
  | unlink (f : OutputFile)
deriving DecidableEq

/-- File operations of `main` lines 422-431, taken when a checkpoint was
loaded but is not compatible: the three output files are rotated, and the
code then calls `checkpoint.unlink()` on the loaded checkpoint *dict*
(not on `CHECKPOINT_PATH`); a dict has no `unlink` attribute, so the call
raises `AttributeError`, which the surrounding
`except (OSError, AttributeError): pass` silently swallows — no file
operation on the checkpoint file results. -/
def staleCheckpointFileOps (resume : Bool) (checkpointLoaded : Bool) : List FileOp :=
  if !resume && checkpointLoaded then
    [.rotate .json, .rotate .csv, .rotate .report]
  else []

end V1

/-! ## Python string helpers used only by the bs4 variant -/

/-- Python whitespace test used by `str.strip()` (the ASCII whitespace
characters). -/
def pySpace (c : Char) : Bool :=
  c = ' ' || c = '\t' || c = '\n' || c = '\x0d' || c = '\x0b' || c = '\x0c'

/-- Python `s.strip()`. -/
def pyStrip (s : String) : String :=
  ⟨((s.data.dropWhile pySpace).reverse.dropWhile pySpace).reverse⟩

/-- Python `s.rstrip(",")`. -/
def rstripComma (s : String) : String :=
  ⟨(s.data.reverse.dropWhile fun c => c = ',').reverse⟩

/-- Python `hay.replace(pat, rep)` on character lists: replace every
non-overlapping occurrence of `pat`, scanning left to right.  (At every
call site of the model `pat` is nonempty; an empty `pat` is left alone
here, whereas Python would interleave `rep` everywhere.) -/
def replaceSub (pat rep : List Char) (hay : List Char) : List Char :=
  if h : pat ≠ [] ∧ startsWithSub pat hay = true then
    rep ++ replaceSub pat rep (hay.drop pat.length)
  else
    match hay with
    | [] => []
    | c :: t => c :: replaceSub pat rep t
termination_by hay.length
decreasing_by
  · have hle := startsWithSub_length h.2
    have hpat : pat.length ≠ 0 := fun hz => h.1 (List.length_eq_zero.mp hz)
    simp only [List.length_drop]
    omega
  · simp

/-- Python `s.replace(pat, rep)` on strings. -/
def strReplace (s pat rep : String) : String :=
  ⟨replaceSub pat.data rep.data s.data⟩

/-- Python `hay.split(sep)` for a nonempty separator, on character
lists. -/
def splitOnSub (sep : List Char) (hay : List Char) : List (List Char) :=
  if h : sep ≠ [] ∧ startsWithSub sep hay = true then
    [] :: splitOnSub sep (hay.drop sep.length)
  else
    match hay with
    | [] => [[]]
    | c :: t =>
      match splitOnSub sep t with
      | [] => [[c]]
      | piece :: rest => (c :: piece) :: rest
termination_by hay.length
decreasing_by
  · have hle := startsWithSub_length h.2
    have hpat : sep.length ≠ 0 := fun hz => h.1 (List.length_eq_zero.mp hz)
    simp only [List.length_drop]
    omega
  · simp

/-- Python `s.split(sep)` on strings. -/
def strSplitOn (s sep : String) : List String :=
  (splitOnSub sep.data s.data).map fun piece => ⟨piece⟩

/-! ## The bs4 variant (`src/scholar_scraper_bs4.py`) -/

namespace BS4

/-- Word character of the regular-expression word boundary in
`\b(19|20)\d{2}\b`. -/
def isWordChar (c : Char) : Bool :=
  c.isAlphanum || c = '_'

/-- Leftmost match of `re.search(r"\b(19|20)\d{2}\b", ...)`: scan left to
right for four characters forming `19xx` or `20xx` flanked by word
boundaries, returning the matched four-character year.  `prev` is the
character just before the scan position (`none` at the start of the
string). -/
def findYear : Option Char → List Char → Option String
  | prev, c1 :: c2 :: c3 :: c4 :: rest =>
    if (match prev with | none => true | some p => !isWordChar p)
        && ((decide (c1 = '1') && decide (c2 = '9'))
            || (decide (c1 = '2') && decide (c2 = '0')))
        && c3.isDigit && c4.isDigit
        && (match rest with | [] => true | c :: _ => !isWordChar c) then
      some ⟨[c1, c2, c3, c4]⟩
    else
      findYear (some c1) (c2 :: c3 :: c4 :: rest)
  | _, _ => none

/-- Leftmost match of `re.search(r"Cited by (\d+)", ...)`: scan for the
literal `"Cited by "` immediately followed by at least one digit, and
return the value of the maximal digit run (the capture group parsed by
`int`). -/
def findCitedBy : List Char → Option Nat
  | [] => none
  | c :: rest =>
    if startsWithSub "Cited by ".data (c :: rest) then
      let ds := ((c :: rest).drop 9).takeWhile Char.isDigit
      if ds.isEmpty then findCitedBy rest
      else some (ds.foldl (fun n ch => n * 10 + (ch.toNat - 48)) 0)
    else findCitedBy rest

/-- Title element of a result division: `select_one(".gs_rt")`.  `text` is
its stripped text; `href` is the `href` attribute of its `<a>` child when
that child exists and carries the attribute (the two Python checks
`link_elem and link_elem.has_attr("href")` collapse into one option). -/
structure TitleElem where
  text : String
  href : Option String := none
deriving DecidableEq

/-- Parsed result division handed to `parse_scholar_result`: each field is
the stripped text of the corresponding selector when the element is
present (`gs_rt` keeps the element structure because both its text and its
link are used). -/
structure GsDiv where
  gs_rt : Option TitleElem := none
  gs_a : Option String := none
  gs_rs : Option String := none
  gs_fl_a : Option String := none
deriving DecidableEq

/-- Function `parse_scholar_result`: a division without a title element
yields no paper; otherwise the title is cleaned of format markers, the
`.gs_a` text is split into authors and a venue/year tail (year recognised
by the `\b(19|20)\d{2}\b` pattern and removed from the venue), the
citation count is parsed from the `.gs_fl a` text, and missing fields fall
back to `"N/A"` (citations to 0).  In the source the whole body sits in a
`try` whose handler returns `None`; the model is total, so the only absent
result is the missing title. -/
def parse_scholar_result (result_div : GsDiv) (result_number : Int) :
    Option V1.Paper :=
  match result_div.gs_rt with
  | none => none
  | some title_elem =>
    let title := pyStrip (strReplace (strReplace (strReplace title_elem.text
      "[PDF]" "") "[HTML]" "") "[BOOK]" "")
    let url := title_elem.href.getD "N/A"
    let avy : String × String × String :=
      match result_div.gs_a with
      | none => ("N/A", "N/A", "N/A")
      | some authors_text =>
        match strSplitOn authors_text " - " with
        | [] => ("N/A", "N/A", "N/A")
        | p0 :: rest =>
          let authors := pyStrip p0
          match rest with
          | [] => (authors, "N/A", "N/A")
          | vy :: _ =>
            let venue_year := pyStrip vy
            match findYear none venue_year.data with
            | some year =>
              (authors, year,
                pyStrip (rstripComma (pyStrip (strReplace venue_year year ""))))
            | none => (authors, "N/A", venue_year)
    let abstract := result_div.gs_rs.getD "N/A"
    let citations : Nat :=
      match result_div.gs_fl_a with
      | none => 0
      | some cite_text =>
        if strContains cite_text "Cited by" then
          (findCitedBy cite_text.data).getD 0
        else 0
    some
      { number := result_number
        title := title
        authors := avy.1
        year := avy.2.1
        venue := avy.2.2
        citations := citations
        abstract := abstract
        url := url }

/-- External environment of the Selenium variant: for each page offset,
`fetch_page_with_selenium` either fails (`none`: an exception or a CAPTCHA
never solved) or yields the parsed result divisions selected from the
page (possibly the empty list). -/
structure DriverEnv where
  page : Int → Option (List GsDiv)

/-- Inner loop of the bs4 `fetch_chunk` over the result divisions of one
page: stop once `chunk_size` papers are collected, skip unparseable
results without consuming a sequence number, and append parsed papers
numbered by `current_number`, which advances only on acceptance. -/
def processDivs (chunk_size : Int) :
    List GsDiv → List V1.Paper → Int → List V1.Paper × Int
  | [], papers, current_number => (papers, current_number)
  | d :: rest, papers, current_number =>
    if (papers.length : Int) ≥ chunk_size then (papers, current_number)
    else
      match parse_scholar_result d current_number with
      | none => processDivs chunk_size rest papers current_number
      | some p => processDivs chunk_size rest (papers ++ [p]) (current_number + 1)

/-- Outer loop of the bs4 `fetch_chunk` over page numbers: stop when the
chunk is full, mark the stream exhausted when a page fails to fetch or
yields no results, and otherwise process the page's divisions. -/
def pagesLoop (env : DriverEnv) (chunk_size start_offset : Int) :
    List Nat → List V1.Paper → Int → List V1.Paper × Bool
  | [], papers, _ => (papers, false)
  | page_num :: rest, papers, current_number =>
    if (papers.length : Int) ≥ chunk_size then (papers, false)
    else
      match env.page (start_offset + (page_num : Int) * 10) with
      | none => (papers, true)
      | some [] => (papers, true)
      | some (d :: ds) =>
        let (papers', current_number') :=
          processDivs chunk_size (d :: ds) papers current_number
        pagesLoop env chunk_size start_offset rest papers' current_number'

/-- Python `range(n)` as an explicit list. -/
def pyRangeFrom0 (n : Nat) : List Nat :=
  V1.pyRange 0 n

/-- Function `fetch_chunk` of the bs4 variant: pages of 10 results are
fetched starting from the page containing `start_index`, and accepted
papers are numbered consecutively from `start_index` (the inter-page
sleeps are pure pacing and are not modelled). -/
def fetch_chunk (env : DriverEnv) (start_index chunk_size : Int) :
    List V1.Paper × Bool :=
  let start_offset := ((start_index - 1).fdiv 10) * 10
  let pages_needed := (chunk_size.fdiv 10 + 1).toNat
  pagesLoop env chunk_size start_offset (pyRangeFrom0 pages_needed) [] start_index

end BS4

/-! ## Claim theorems -/

theorem strContains_iff (hay needle : String) :
    strContains hay needle = true ↔ OccursIn needle.data hay.data :=
  containsSub_iff _ _

/-- Claim C3, counterexample to the biconditional as stated: for the empty
text and the keyword list `["*"]` the keyword's prefix (the empty string)
does occur in the text — every string contains the empty string, and for
nonempty text the code itself accepts such a match — yet
`_matches_keywords` returns `false` because of its early return on empty
text.  The two clauses of the claim therefore disagree at this input. -/
theorem c3_matches_keywords_counterexample :
    V1.matches_keywords "" ["*"] = false ∧ V1.keywordOccurs "" "*" :=
  ⟨by decide, by
    unfold V1.keywordOccurs
    rw [if_pos (by decide)]
    exact ⟨[], [], by decide⟩⟩

/-- Claim C3, amended: for nonempty text, `_matches_keywords(T, K)` is true
iff some keyword of `K` occurs case-insensitively in `T` (a keyword ending
in `*` contributing its prefix), and empty text always yields `false` —
even when a keyword's literal or prefix is the empty string and would
vacuously occur. -/
theorem c3_matches_keywords_spec (T : String) (K : List String) :
    V1.matches_keywords T K = true ↔ (T ≠ "" ∧ ∃ kw ∈ K, V1.keywordOccurs T kw) := by
  by_cases hT : T = ""
  · subst hT
    simp [V1.matches_keywords]
  · unfold V1.matches_keywords
    rw [if_neg hT, List.any_eq_true]
    simp only [ne_eq, hT, not_false_iff, true_and]
    constructor
    · rintro ⟨kw, hkw, h⟩
      refine ⟨kw, hkw, ?_⟩
      unfold V1.keywordOccurs
      by_cases hstar : strEndsWith kw "*" = true
      · rw [if_pos hstar] at h ⊢
        exact (strContains_iff _ _).mp h
      · rw [if_neg hstar] at h ⊢
        exact (strContains_iff _ _).mp h
    · rintro ⟨kw, hkw, h⟩
      refine ⟨kw, hkw, ?_⟩
      unfold V1.keywordOccurs at h
      by_cases hstar : strEndsWith kw "*" = true
      · rw [if_pos hstar] at h ⊢
        exact (strContains_iff _ _).mpr h
      · rw [if_neg hstar] at h ⊢
        exact (strContains_iff _ _).mpr h

/-- Claim C4: for a loaded checkpoint, compatibility holds exactly when the
stored query and both stored keyword lists equal the active configuration,
and the result never depends on the `chunk_size` and `max_results`
arguments. -/
theorem c4_checkpoint_compatibility :
    (∀ (cp : V1.StoredCheckpoint) (q : String) (cs mr : Int),
      V1.is_checkpoint_compatible (some cp) q cs mr = true ↔
        (cp.query = some q ∧ cp.ita_keywords = some V1.ITA_KEYWORDS ∧
          cp.assessment_keywords = some V1.ASSESSMENT_KEYWORDS)) ∧
    (∀ (ck : Option V1.StoredCheckpoint) (q : String) (cs cs' mr mr' : Int),
      V1.is_checkpoint_compatible ck q cs mr =
        V1.is_checkpoint_compatible ck q cs' mr') := by
  constructor
  · intro cp q cs mr
    simp only [V1.is_checkpoint_compatible]
    split_ifs with h1 h2
    · simp only [Bool.false_eq_true, false_iff]
      rintro ⟨hq, _, _⟩
      exact h1 hq
    · simp only [Bool.false_eq_true, false_iff]
      rintro ⟨_, hi, ha⟩
      rcases h2 with h2 | h2
      · exact h2 hi
      · exact h2 ha
    · push_neg at h1 h2
      simp [h1, h2.1, h2.2]
  · intro ck q cs cs' mr mr'
    cases ck <;> rfl

/-- Claim C5 (code bug): on an incompatible loaded checkpoint the three
output files are rotated, but no unlink of the checkpoint file ever
happens — `main` calls `.unlink()` on the loaded dict, and the resulting
`AttributeError` is silently swallowed, so `checkpoint.json` stays on
disk even though the log claims it was removed. -/
theorem c5_stale_checkpoint_not_unlinked :
    V1.staleCheckpointFileOps false true =
      [.rotate .json, .rotate .csv, .rotate .report] ∧
    ((V1.staleCheckpointFileOps false true).any fun op =>
      op == V1.FileOp.unlink .checkpoint) = false := by
  exact ⟨rfl, by decide⟩

/-- Claim C6: a chunk whose range is empty (`start_index > end_index`)
returns the empty paper list with `last_index = start_index - 1` and
`exhausted = false`, with an empty effect trace — no iterator opening, no
`next()` call, no sleep, and no write. -/
theorem c6_empty_range_no_side_effects (env : V1.ScholarEnv) (q : String)
    (S E : Int) (minD maxD : ℚ) (h : S > E) :
    V1.fetch_chunk env q S E minD maxD = (.ok ⟨[], S - 1, false⟩, []) := by
  unfold V1.fetch_chunk
  rw [if_pos h]

/-- Witness for claim C6 at the concrete input `S = 3 > 2 = E`. -/
theorem c6_empty_range_witness :
    (3 : Int) > 2 ∧
      V1.fetch_chunk ⟨false, fun _ => .stop⟩ "q" 3 2 0 0 =
        (.ok ⟨[], 2, false⟩, []) :=
  ⟨by decide, c6_empty_range_no_side_effects ⟨false, fun _ => .stop⟩ "q" 3 2 0 0 (by decide)⟩

/-- Claim C8: `parse_scholar_result` yields no paper exactly when the
result division lacks the title element; every other input yields a paper.
The source wraps the whole extraction in a `try` whose handler returns
`None`, so extraction never raises to its caller; the model is
correspondingly total. -/
theorem c8_parse_none_iff_missing_title (d : BS4.GsDiv) (n : Int) :
    BS4.parse_scholar_result d n = none ↔ d.gs_rt = none := by
  cases h : d.gs_rt with
  | none => simp [BS4.parse_scholar_result, h]
  | some t => simp [BS4.parse_scholar_result, h]

/-- Claim C9: resuming with a compatible checkpoint whose
`next_index = 11` under `max_results = 10` returns before the fetch, with
an empty effect trace — no iterator opening, no `next()` call, and none of
the four files is written; the stale-checkpoint branch (which rotates
outputs) is also inactive on a compatible checkpoint. -/
theorem c9_resume_beyond_limit_no_effects :
    (∀ (env : V1.ScholarEnv) (chunk_size : Int) (minD maxD : ℚ)
      (existing : List V1.Paper),
      V1.mainRun env chunk_size 10 minD maxD true (some 11) existing =
        (.ok (), [])) ∧
    V1.staleCheckpointFileOps true true = [] := by
  constructor
  · intro env chunk_size minD maxD existing
    rfl
  · rfl

/-- Invariant of the v1 chunk loop, proved by induction over the remaining
iteration space `pyRange a n`: on a normal return the accepted papers grew
by at most the number of remaining indices that are at least
`start_index`, the returned `last_index` never exceeds `end_index`, and —
unless the stream was exhausted — `last_index` is at least
`start_index - 1`. -/
theorem fetchLoop_ok_bounds (stream : Nat → V1.StreamEvent) (S E : Int)
    (minD maxD : ℚ) :
    ∀ (n a : Nat) (papers : List V1.Paper) (last : Int)
      (res : V1.FetchResult) (effs : List V1.RunEffect),
      V1.fetchLoop stream S E minD maxD (V1.pyRange a n) papers last = (.ok res, effs) →
      last ≤ E →
      ((a : Int) + n - 1 ≤ E ∨ n = 0) →
      ((S - 1 ≤ last ∧ S ≤ (a : Int)) ∨
        ((a : Int) ≤ S - 1 ∧ S - 1 ≤ (a : Int) + n - 1)) →
      (res.papers.length : Int) ≤ papers.length + ((a : Int) + n - max S a).toNat ∧
      res.last_index ≤ E ∧
      (res.reached_end = false → S - 1 ≤ res.last_index) := by
  intro n
  induction n with
  | zero =>
    intro a papers last res effs heq hlast _hub hinv
    simp only [V1.pyRange, V1.fetchLoop, Prod.mk.injEq, Except.ok.injEq] at heq
    obtain ⟨rfl, rfl⟩ := heq
    refine ⟨by dsimp only; omega, by dsimp only; exact hlast, ?_⟩
    dsimp only
    intro _
    omega
  | succ n ih =>
    intro a papers last res effs heq hlast hub hinv
    simp only [V1.pyRange, V1.fetchLoop] at heq
    rcases hev : stream a with raw | _ | _
    · -- a record was returned by `next()`
      rw [hev] at heq
      simp only [] at heq
      by_cases hskip : (a : Int) < S
      · -- idx < start_index: skip, advancing last_index
        rw [if_pos hskip] at heq
        rcases hrec : V1.fetchLoop stream S E minD maxD (V1.pyRange (a + 1) n)
            papers (a : Int) with ⟨r, effs'⟩
        rw [hrec] at heq
        simp only [Prod.mk.injEq] at heq
        obtain ⟨hr, -⟩ := heq
        subst hr
        have hout := ih (a + 1) papers (a : Int) res effs'
          hrec (by omega) (by omega) (by omega)
        refine ⟨?_, hout.2.1, hout.2.2⟩
        have hcap := hout.1
        omega
      · rw [if_neg hskip] at heq
        by_cases hfilter :
            (!(V1.matches_keywords ((raw.title.getD "") ++ " " ++ raw.abstract.getD "")
                V1.ITA_KEYWORDS
              && V1.matches_keywords ((raw.title.getD "") ++ " " ++ raw.abstract.getD "")
                V1.ASSESSMENT_KEYWORDS)) = true
        · -- the record fails a keyword group and is dropped
          rw [if_pos hfilter] at heq
          rcases hrec : V1.fetchLoop stream S E minD maxD (V1.pyRange (a + 1) n)
              papers last with ⟨r, effs'⟩
          rw [hrec] at heq
          simp only [Prod.mk.injEq] at heq
          obtain ⟨hr, -⟩ := heq
          subst hr
          have hout := ih (a + 1) papers last res effs'
            hrec hlast (by omega) (by omega)
          refine ⟨?_, hout.2.1, hout.2.2⟩
          have hcap := hout.1
          omega
        · -- the record is accepted
          rw [if_neg hfilter] at heq
          rcases hrec : V1.fetchLoop stream S E minD maxD (V1.pyRange (a + 1) n)
              (papers ++
                [{ number := (a : Int)
                   title := raw.title.getD ""
                   authors := raw.author.getD "N/A"
                   year := raw.pub_year.getD "N/A"
                   venue := raw.venue.getD "N/A"
                   citations := raw.num_citations.getD 0
                   abstract := if raw.abstract.getD "" = "" then "N/A"
                     else raw.abstract.getD ""
                   url := raw.pub_url.getD "N/A" }]) (a : Int) with ⟨r, effs'⟩
          rw [hrec] at heq
          simp only [Prod.mk.injEq] at heq
          obtain ⟨hr, -⟩ := heq
          subst hr
          have hout := ih (a + 1) _ (a : Int) res effs'
            hrec (by omega) (by omega) (by omega)
          refine ⟨?_, hout.2.1, hout.2.2⟩
          have hcap := hout.1
          rw [List.length_append] at hcap
          simp only [List.length_cons, List.length_nil] at hcap
          omega
    · -- StopIteration: the stream is exhausted
      rw [hev] at heq
      simp only [Prod.mk.injEq, Except.ok.injEq] at heq
      obtain ⟨rfl, rfl⟩ := heq
      refine ⟨by dsimp only; omega, by dsimp only; omega, ?_⟩
      dsimp only
      intro h
      cases h
    · -- MaxTriesExceededException: no normal return
      rw [hev] at heq
      simp only [Prod.mk.injEq] at heq
      exact absurd heq.1 (by simp)

/-- Claim C2, counterexample to the invariant as stated: with the stream
exhausting immediately and `S = E = 2`, `fetch_chunk` returns
`last_index = 0 < 1 = S - 1`, so the lower bound `S - 1 <= last_index`
does not hold unconditionally (the specification's dropped qualifier "or
less only if the stream exhausted early" is exactly what fails here). -/
theorem c2_chunk_invariant_counterexample :
    V1.fetch_chunk ⟨false, fun _ => .stop⟩ "q" 2 2 0 0 =
      (.ok ⟨[], 0, true⟩, [.openSearch, .fetchNext 1]) ∧
    (0 : Int) < 2 - 1 :=
  ⟨rfl, by decide⟩

/-- Claim C2, amended: for `S <= E`, a normal return of `fetch_chunk`
yields at most `E - S + 1` accepted papers and a `last_index` at most `E`;
the lower bound `S - 1 <= last_index` holds whenever the stream was not
exhausted early (`reached_end = false`). -/
theorem c2_chunk_invariant (env : V1.ScholarEnv) (q : String)
    (S E : Int) (minD maxD : ℚ) (res : V1.FetchResult)
    (effs : List V1.RunEffect) (hSE : S ≤ E)
    (heq : V1.fetch_chunk env q S E minD maxD = (.ok res, effs)) :
    (res.papers.length : Int) ≤ E - S + 1 ∧
    res.last_index ≤ E ∧
    (res.reached_end = false → S - 1 ≤ res.last_index) := by
  unfold V1.fetch_chunk at heq
  rw [if_neg (by omega)] at heq
  by_cases hop : env.openThrottles = true
  · rw [if_pos hop] at heq
    simp at heq
  · rw [if_neg hop] at heq
    rcases hrec : V1.fetchLoop env.stream S E minD maxD (V1.pyRange 1 E.toNat)
        [] (S - 1) with ⟨r, effs'⟩
    rw [hrec] at heq
    simp only [Prod.mk.injEq] at heq
    obtain ⟨hr, -⟩ := heq
    subst hr
    have hout := fetchLoop_ok_bounds env.stream S E minD maxD E.toNat 1 [] (S - 1)
      res effs' hrec (by omega) (by omega) (by omega)
    refine ⟨?_, hout.2.1, hout.2.2⟩
    have hcap := hout.1
    simp only [List.length_nil] at hcap
    omega

/-- Witness for claim C2 at the concrete input `S = E = 1` with an
immediately exhausted stream. -/
theorem c2_chunk_invariant_witness :
    ((1 : Int) ≤ 1 ∧
      V1.fetch_chunk ⟨false, fun _ => .stop⟩ "q" 1 1 0 0 =
        (.ok ⟨[], 0, true⟩, [.openSearch, .fetchNext 1])) ∧
    (((V1.FetchResult.mk [] 0 true).papers.length : Int) ≤ 1 - 1 + 1 ∧
      (V1.FetchResult.mk [] 0 true).last_index ≤ 1 ∧
      ((V1.FetchResult.mk [] 0 true).reached_end = false →
        (1 : Int) - 1 ≤ (V1.FetchResult.mk [] 0 true).last_index)) :=
  ⟨⟨by decide, rfl⟩,
    c2_chunk_invariant ⟨false, fun _ => .stop⟩ "q" 1 1 0 0 ⟨[], 0, true⟩
      [.openSearch, .fetchNext 1] (by decide) rfl⟩

/-- Abort behaviour of the v1 chunk loop: if every `next()` call before
raw index `k` yields a record and the call at `k` raises the rate-limit
exception, the loop over any range containing `k` returns the propagated
error, and the trace ends at the fetch of `k` — nothing is retried and no
effect follows the throttled call. -/
theorem fetchLoop_throttle_aborts (stream : Nat → V1.StreamEvent) (S E : Int)
    (minD maxD : ℚ) (k : Nat) (hk : stream k = .throttle) :
    ∀ (n a : Nat) (papers : List V1.Paper) (last : Int),
      (∀ j, a ≤ j → j < k → ∃ r, stream j = .result r) →
      a ≤ k → k < a + n →
      ∃ pre, V1.fetchLoop stream S E minD maxD (V1.pyRange a n) papers last =
        (.error .maxTriesExceeded, pre ++ [.fetchNext k]) := by
  intro n
  induction n with
  | zero =>
    intro a papers last _hres hak hkn
    exact absurd hkn (by omega)
  | succ n ih =>
    intro a papers last hres hak hkn
    by_cases hae : a = k
    · subst hae
      refine ⟨[], ?_⟩
      simp [V1.pyRange, V1.fetchLoop, hk]
    · have hlt : a < k := by omega
      obtain ⟨raw, hraw⟩ := hres a (le_refl a) hlt
      simp only [V1.pyRange, V1.fetchLoop, hraw]
      by_cases hskip : (a : Int) < S
      · rw [if_pos hskip]
        obtain ⟨pre1, hpre1⟩ := ih (a + 1) papers (a : Int)
          (fun j hj hjk => hres j (by omega) hjk) (by omega) (by omega)
        rw [hpre1]
        exact ⟨.fetchNext a :: pre1, by simp⟩
      · rw [if_neg hskip]
        by_cases hfilter :
            (!(V1.matches_keywords ((raw.title.getD "") ++ " " ++ raw.abstract.getD "")
                V1.ITA_KEYWORDS
              && V1.matches_keywords ((raw.title.getD "") ++ " " ++ raw.abstract.getD "")
                V1.ASSESSMENT_KEYWORDS)) = true
        · rw [if_pos hfilter]
          obtain ⟨pre2, hpre2⟩ := ih (a + 1) papers last
            (fun j hj hjk => hres j (by omega) hjk) (by omega) (by omega)
          rw [hpre2]
          exact ⟨.fetchNext a :: pre2, by simp⟩
        · rw [if_neg hfilter]
          obtain ⟨pre3, hpre3⟩ := ih (a + 1)
            (papers ++
              [{ number := (a : Int)
                 title := raw.title.getD ""
                 authors := raw.author.getD "N/A"
                 year := raw.pub_year.getD "N/A"
                 venue := raw.venue.getD "N/A"
                 citations := raw.num_citations.getD 0
                 abstract := if raw.abstract.getD "" = "" then "N/A"
                   else raw.abstract.getD ""
                 url := raw.pub_url.getD "N/A" }]) (a : Int)
            (fun j hj hjk => hres j (by omega) hjk) (by omega) (by omega)
          rw [hpre3]
          refine ⟨.fetchNext a ::
            ((if (a : Int) < E then V1.throttleEffects minD maxD else []) ++ pre3), ?_⟩
          simp

/-- Claim C7: a rate-limit exception raised while opening the result
iterator, or by any individual `next()` call the loop reaches, is
propagated out of `fetch_chunk` as a fatal error; the effect trace stops
at the throttled call — there is no retry of the call and no backoff sleep
after it. -/
theorem c7_rate_limit_fatal :
    (∀ (env : V1.ScholarEnv) (q : String) (S E : Int) (minD maxD : ℚ),
      S ≤ E → env.openThrottles = true →
      V1.fetch_chunk env q S E minD maxD =
        (.error .maxTriesExceeded, [.openSearch])) ∧
    (∀ (env : V1.ScholarEnv) (q : String) (S E : Int) (minD maxD : ℚ) (k : Nat),
      S ≤ E → env.openThrottles = false →
      (∀ j, 1 ≤ j → j < k → ∃ r, env.stream j = .result r) →
      env.stream k = .throttle → 1 ≤ k → (k : Int) ≤ E →
      ∃ pre, V1.fetch_chunk env q S E minD maxD =
        (.error .maxTriesExceeded, .openSearch :: (pre ++ [.fetchNext k]))) := by
  constructor
  · intro env q S E minD maxD hSE hop
    unfold V1.fetch_chunk
    rw [if_neg (by omega), if_pos hop]
  · intro env q S E minD maxD k hSE hop hres hk hk1 hkE
    unfold V1.fetch_chunk
    rw [if_neg (by omega), if_neg (by simp [hop])]
    obtain ⟨pre, hpre⟩ := fetchLoop_throttle_aborts env.stream S E minD maxD k hk
      E.toNat 1 [] (S - 1) (fun j hj hjk => hres j hj hjk) (by omega) (by omega)
    rw [hpre]
    exact ⟨pre, by simp⟩

/-- Witness for claim C7: the opening throttle at `S = E = 1`, and a
throttle at raw index 2 after one record, both abort the chunk. -/
theorem c7_rate_limit_fatal_witness :
    (V1.fetch_chunk ⟨true, fun _ => .stop⟩ "q" 1 1 0 0 =
      (.error .maxTriesExceeded, [.openSearch])) ∧
    (∃ pre, V1.fetch_chunk ⟨false, fun n => if n = 2 then .throttle else .result {}⟩
        "q" 1 2 0 0 =
      (.error .maxTriesExceeded, .openSearch :: (pre ++ [.fetchNext 2]))) :=
  ⟨c7_rate_limit_fatal.1 ⟨true, fun _ => .stop⟩ "q" 1 1 0 0 (by decide) rfl,
    c7_rate_limit_fatal.2 ⟨false, fun n => if n = 2 then .throttle else .result {}⟩
      "q" 1 2 0 0 2 (by decide) rfl
      (fun j h1 h2 => ⟨{}, by
        have hj : j = 1 := by omega
        subst hj
        rfl⟩)
      rfl (by decide) (by decide)⟩

/-- List of the `n` consecutive integers starting at `S`, the expected
sequence numbers of a chunk that starts numbering at `S`. -/
def consecFrom (S : Int) (n : Nat) : List Int :=
  (List.range n).map fun (i : Nat) => S + (i : Int)

theorem consecFrom_succ (S : Int) (n : Nat) :
    consecFrom S (n + 1) = consecFrom S n ++ [S + n] := by
  unfold consecFrom
  rw [List.range_succ, List.map_append]
  rfl

theorem parse_scholar_result_number (d : BS4.GsDiv) (n : Int) (p : V1.Paper)
    (h : BS4.parse_scholar_result d n = some p) : p.number = n := by
  cases hrt : d.gs_rt with
  | none =>
    rw [BS4.parse_scholar_result, hrt] at h
    cases h
  | some t =>
    simp only [BS4.parse_scholar_result, hrt, Option.some.injEq] at h
    subst h
    rfl

/-- Numbering invariant of the inner division loop of the bs4
`fetch_chunk`: if the accumulated papers are numbered `S .. S + len - 1`
and `current_number` is the next number to assign, the same holds after
processing any list of result divisions. -/
theorem processDivs_numbers (cs S : Int) :
    ∀ (divs : List BS4.GsDiv) (papers : List V1.Paper) (cn : Int)
      (papers' : List V1.Paper) (cn' : Int),
      BS4.processDivs cs divs papers cn = (papers', cn') →
      papers.map V1.Paper.number = consecFrom S papers.length →
      cn = S + papers.length →
      papers'.map V1.Paper.number = consecFrom S papers'.length ∧
      cn' = S + papers'.length := by
  intro divs
  induction divs with
  | nil =>
    intro papers cn papers' cn' heq h1 h2
    simp only [BS4.processDivs, Prod.mk.injEq] at heq
    obtain ⟨rfl, rfl⟩ := heq
    exact ⟨h1, h2⟩
  | cons d rest ih =>
    intro papers cn papers' cn' heq h1 h2
    simp only [BS4.processDivs] at heq
    by_cases hfull : (papers.length : Int) ≥ cs
    · rw [if_pos hfull] at heq
      simp only [Prod.mk.injEq] at heq
      obtain ⟨rfl, rfl⟩ := heq
      exact ⟨h1, h2⟩
    · rw [if_neg hfull] at heq
      cases hp : BS4.parse_scholar_result d cn with
      | none =>
        rw [hp] at heq
        exact ih papers cn papers' cn' heq h1 h2
      | some p =>
        rw [hp] at heq
        have hnum : p.number = cn := parse_scholar_result_number d cn p hp
        refine ih (papers ++ [p]) (cn + 1) papers' cn' heq ?_ ?_
        · rw [List.map_append, h1, List.length_append]
          simp only [List.map_cons, List.map_nil, List.length_cons, List.length_nil]
          rw [consecFrom_succ, hnum, h2]
        · rw [List.length_append]
          simp only [List.length_cons, List.length_nil]
          omega

/-- Numbering invariant of the outer page loop of the bs4
`fetch_chunk`. -/
theorem pagesLoop_numbers (env : BS4.DriverEnv) (cs off S : Int) :
    ∀ (pages : List Nat) (papers : List V1.Paper) (cn : Int)
      (papers' : List V1.Paper) (flag : Bool),
      BS4.pagesLoop env cs off pages papers cn = (papers', flag) →
      papers.map V1.Paper.number = consecFrom S papers.length →
      cn = S + papers.length →
      papers'.map V1.Paper.number = consecFrom S papers'.length := by
  intro pages
  induction pages with
  | nil =>
    intro papers cn papers' flag heq h1 _h2
    simp only [BS4.pagesLoop, Prod.mk.injEq] at heq
    obtain ⟨rfl, rfl⟩ := heq
    exact h1
  | cons pn rest ih =>
    intro papers cn papers' flag heq h1 h2
    simp only [BS4.pagesLoop] at heq
    by_cases hfull : (papers.length : Int) ≥ cs
    · rw [if_pos hfull] at heq
      simp only [Prod.mk.injEq] at heq
      obtain ⟨rfl, rfl⟩ := heq
      exact h1
    · rw [if_neg hfull] at heq
      cases hpage : env.page (off + (pn : Int) * 10) with
      | none =>
        rw [hpage] at heq
        simp only [Prod.mk.injEq] at heq
        obtain ⟨rfl, rfl⟩ := heq
        exact h1
      | some divs =>
        cases divs with
        | nil =>
          rw [hpage] at heq
          simp only [Prod.mk.injEq] at heq
          obtain ⟨rfl, rfl⟩ := heq
          exact h1
        | cons d ds =>
          rw [hpage] at heq
          simp only [] at heq
          rcases hpd : BS4.processDivs cs (d :: ds) papers cn with ⟨papers'', cn''⟩
          simp only [hpd] at heq
          obtain ⟨h1', h2'⟩ := processDivs_numbers cs S (d :: ds) papers cn
            papers'' cn'' hpd h1 h2
          exact ih papers'' cn'' papers' flag heq h1' h2'

/-- Claim C10: the bs4 `fetch_chunk` numbers its accepted papers
consecutively `start_index, start_index + 1, ...` in acceptance order,
regardless of the driver environment — in particular regardless of how
many raw results every page loses to `parse_scholar_result` returning no
paper.  The sequence number records acceptance rank, not raw stream
position. -/
theorem c10_bs4_consecutive_numbering (env : BS4.DriverEnv) (S C : Int) :
    (BS4.fetch_chunk env S C).1.map V1.Paper.number =
      consecFrom S (BS4.fetch_chunk env S C).1.length := by
  unfold BS4.fetch_chunk
  rcases h : BS4.pagesLoop env C (((S - 1).fdiv 10) * 10)
      (BS4.pyRangeFrom0 (C.fdiv 10 + 1).toNat) [] S with ⟨ps, fl⟩
  simp only [h]
  exact pagesLoop_numbers env C (((S - 1).fdiv 10) * 10) S
    (BS4.pyRangeFrom0 (C.fdiv 10 + 1).toNat) [] S ps fl h rfl (by simp)

/-- Raw record 1 of the claim C1 scenario: its title contains "ITA" and a
"rubric"-prefixed term, so it passes both keyword groups. -/
def rawRecord1 : V1.RawResult :=
  { title := some "ITA speaking rubric design" }

/-- Raw record 2 of the claim C1 scenario: its title contains neither an
ITA keyword nor an assessment keyword, so the client-side filter drops
it. -/
def rawRecord2 : V1.RawResult :=
  { title := some "General pedagogy overview" }

/-- Raw record 3 of the claim C1 scenario: passes both keyword groups, but
sits beyond the chunk's raw range. -/
def rawRecord3 : V1.RawResult :=
  { title := some "ITA oral proficiency rubric" }

/-- Stream of the claim C1 scenario: three raw records of which only 1 and
3 satisfy both keyword groups, then exhaustion. -/
def envScenario : V1.ScholarEnv :=
  ⟨false, fun n =>
    if n = 1 then .result rawRecord1
    else if n = 2 then .result rawRecord2
    else if n = 3 then .result rawRecord3
    else .stop⟩

/-- Paper built from `rawRecord1` at raw index 1. -/
def paperOne : V1.Paper :=
  { number := 1
    title := "ITA speaking rubric design"
    authors := "N/A"
    year := "N/A"
    venue := "N/A"
    citations := 0
    abstract := "N/A"
    url := "N/A" }

/-- Sequence-number lists of all JSON snapshots written in a trace. -/
def jsonNumbersWritten (effs : List V1.RunEffect) : List (List Int) :=
  effs.filterMap fun e =>
    match e with
    | .writeJson ps => some (ps.map V1.Paper.number)
    | _ => none

/-- The `next_index` values of all checkpoints written in a trace. -/
def checkpointNextWritten (effs : List V1.RunEffect) : List Int :=
  effs.filterMap fun e =>
    match e with
    | .writeCheckpoint cp => some cp.next_index
    | _ => none

/-- Claim C1, counterexample: in the scenario (chunk_size 2, max_results 2,
fresh run, stream as in `envScenario`) the run writes a JSON snapshot
holding exactly one paper, numbered 1, and a checkpoint with
`next_index = 2` — not two papers numbered 1 and 3 with `next_index = 4`
as claimed.  The chunk's loop range is the raw index range
`start_index .. target_end_index = 1 .. 2`, so the dropped record 2
consumes a raw slot and record 3 is never fetched. -/
theorem c1_scenario_counterexample :
    jsonNumbersWritten (V1.mainRun envScenario 2 2 0 0 false none []).2 = [[1]] ∧
    checkpointNextWritten (V1.mainRun envScenario 2 2 0 0 false none []).2 = [2] ∧
    (jsonNumbersWritten (V1.mainRun envScenario 2 2 0 0 false none []).2
      == [[1, 3]]) = false ∧
    (checkpointNextWritten (V1.mainRun envScenario 2 2 0 0 false none []).2
      == [4]) = false := by
  decide

/-- Claim C1, amended: in the scenario the run opens the iterator, fetches
raw indices 1 and 2 exactly once each (the filtered record neither
re-enters the loop nor frees its slot), accepts only record 1, writes the
three outputs with that single paper, and advances the checkpoint to
`next_index = 2` with the search not yet marked complete. -/
theorem c1_scenario_run :
    V1.mainRun envScenario 2 2 0 0 false none [] =
      (.ok (),
        [.openSearch, .fetchNext 1, .fetchNext 2,
         .writeJson [paperOne], .appendCsv [paperOne], .writeReport [paperOne],
         .writeCheckpoint
           { query := V1.build_query V1.ITA_KEYWORDS V1.ASSESSMENT_KEYWORDS
             ita_keywords := V1.ITA_KEYWORDS
             assessment_keywords := V1.ASSESSMENT_KEYWORDS
             chunk_size := 2
             max_results := 2
             next_index := 2
             completed := false }]) := by
  rfl
